import Mathlib

/-!
Verification of the RUDP skeleton (rudp_client_skeleton.py and
rudp_server_skeleton.py): the frame codec `pack_msg`/`unpack_msg`, the
client's send-and-wait retry primitive `send_recv_with_retry`, and the
server's reactive receive loop, shallowly embedded from the Python
sources.
-/

/-- A byte buffer, as a list of byte values (each `< 256` on real wire
traffic). -/
abbrev Bytes := List Nat

/-- Protocol type code `SYN = 1`. -/
def SYN : Nat := 1

/-- Protocol type code `SYN_ACK = 2`. -/
def SYN_ACK : Nat := 2

/-- Protocol type code `ACK = 3`. -/
def ACK : Nat := 3

/-- Protocol type code `DATA = 4`. -/
def DATA : Nat := 4

/-- Protocol type code `DATA_ACK = 5`. -/
def DATA_ACK : Nat := 5

/-- Protocol type code `FIN = 6`. -/
def FIN : Nat := 6

/-- Protocol type code `FIN_ACK = 7`. -/
def FIN_ACK : Nat := 7

/-- Header size: `struct.calcsize('!B I H') = 7`. -/
def HDR_SZ : Nat := 7

/-- `pack_msg(tp, seq, payload)`:
`struct.pack('!B I H', tp, seq, len(payload)) + payload` — a 1-byte type,
a 4-byte big-endian sequence, a 2-byte big-endian payload length, then
the payload. `struct.pack` demands `tp < 2^8`, `seq < 2^32` and
`len(payload) < 2^16` (it raises otherwise); in that range each `% 256`
below is the identity. -/
def pack_msg (tp seq : Nat) (payload : Bytes) : Bytes :=
  tp % 256 ::
    seq / 16777216 % 256 :: seq / 65536 % 256 :: seq / 256 % 256 :: seq % 256 ::
    payload.length / 256 % 256 :: payload.length % 256 ::
    payload

/-- `unpack_msg(pkt)`: returns `(None, None, b'')` when the buffer is
shorter than `HDR_SZ = 7`; otherwise reads the three header fields and
takes `len` bytes of payload (`pkt[HDR_SZ:HDR_SZ+ln]`, which truncates
when the buffer underruns the declared length). -/
def unpack_msg : Bytes → Option Nat × Option Nat × Bytes
  | tb :: s3 :: s2 :: s1 :: s0 :: l1 :: l0 :: rest =>
      (some tb, some (s3 * 16777216 + s2 * 65536 + s1 * 256 + s0),
        rest.take (l1 * 256 + l0))
  | _ => (none, none, [])

/-- Decoding inverts encoding whenever the three fields are in the ranges
`struct.pack` accepts. -/
theorem unpack_pack (tp seq : Nat) (pl : Bytes) (h1 : tp < 256)
    (h2 : seq < 4294967296) (h3 : pl.length ≤ 65535) :
    unpack_msg (pack_msg tp seq pl) = (some tp, some seq, pl) := by
  simp only [pack_msg, unpack_msg]
  have hlen : pl.length / 256 % 256 * 256 + pl.length % 256 = pl.length := by
    omega
  have hseq : seq / 16777216 % 256 * 16777216 + seq / 65536 % 256 * 65536 +
      seq / 256 % 256 * 256 + seq % 256 = seq := by
    omega
  rw [hlen, hseq, Nat.mod_eq_of_lt h1, List.take_length]

/-- C1: for every frame type (any one-byte code), every sequence number
representable in 32 bits, and every payload with length ≤ 65535,
`unpack_msg (pack_msg tp seq payload) = (tp, seq, payload)`. -/
theorem unpack_pack_roundtrip (tp seq : Nat) (pl : Bytes) (h1 : tp < 256)
    (h2 : seq < 4294967296) (h3 : pl.length ≤ 65535) :
    unpack_msg (pack_msg tp seq pl) = (some tp, some seq, pl) :=
  unpack_pack tp seq pl h1 h2 h3

/-- C1 witness: the round trip at type `DATA`, sequence 7, payload
`[1, 2, 3]`. -/
theorem unpack_pack_roundtrip_w :
    unpack_msg (pack_msg 4 7 [1, 2, 3]) = (some 4, some 7, [1, 2, 3]) :=
  unpack_pack_roundtrip 4 7 [1, 2, 3] (by decide) (by decide) (by decide)

/-- Client retry budget: `RETRIES = 5` (max retries per send). -/
def RETRIES : Nat := 5

/-- What one `recvfrom` inside `send_recv_with_retry` yields: either
`socket.timeout` or a datagram. Each loop iteration sends the packet and
then blocks on exactly one `recvfrom`, so a run of the primitive is
driven by one outcome per attempt. -/
inductive RecvOutcome where
  | timeout
  | gotPkt (data : Bytes)
deriving DecidableEq, Repr

/-- The match test of `send_recv_with_retry`:
`tp in expect_types and (expect_seq is None or s == expect_seq)`.
A buffer shorter than the header unpacks to `tp = None`, which is never
in the list of integer codes, so it never matches. -/
def respMatches (expect_types : List Nat) (expect_seq : Option Nat)
    (d : Bytes) : Bool :=
  match unpack_msg d with
  | (some tp, some s, _) =>
      expect_types.contains tp && (expect_seq.isNone || expect_seq == some s)
  | _ => false

/-- The `for _ in range(RETRIES)` loop of `send_recv_with_retry`, with
the remaining attempt count explicit. Each attempt sends the packet
(the packet's bytes do not influence control flow, so they are omitted),
then consumes one `RecvOutcome`: on timeout it retries, on a matching
response it returns `(tp, s)`, on a non-matching response it falls to
the next iteration. Exhausting the range returns `(None, None)`. -/
def send_recv_loop (expect_types : List Nat) (expect_seq : Option Nat) :
    Nat → List RecvOutcome → Option Nat × Option Nat
  | 0, _ => (none, none)
  | _ + 1, [] => (none, none)
  | n + 1, .timeout :: rest => send_recv_loop expect_types expect_seq n rest
  | n + 1, .gotPkt d :: rest =>
      if respMatches expect_types expect_seq d then
        ((unpack_msg d).1, (unpack_msg d).2.1)
      else send_recv_loop expect_types expect_seq n rest

/-- `send_recv_with_retry`, driven by the list of per-attempt receive
outcomes: the loop above started with the full `RETRIES` budget. -/
def send_recv_with_retry (expect_types : List Nat) (expect_seq : Option Nat)
    (outcomes : List RecvOutcome) : Option Nat × Option Nat :=
  send_recv_loop expect_types expect_seq RETRIES outcomes

/-- The specification-side description of the primitive's result: scan
the received outcomes for the first response whose type is acceptable
and whose sequence matches, and return its parsed `(tp, s)`. -/
def firstMatchSpec (expect_types : List Nat) (expect_seq : Option Nat) :
    List RecvOutcome → Option (Option Nat × Option Nat)
  | [] => none
  | .timeout :: rest => firstMatchSpec expect_types expect_seq rest
  | .gotPkt d :: rest =>
      if respMatches expect_types expect_seq d then
        some ((unpack_msg d).1, (unpack_msg d).2.1)
      else firstMatchSpec expect_types expect_seq rest

/-- The loop returns the first matching response among the outcomes it
has budget to examine, and `(None, None)` when there is none. -/
theorem send_recv_loop_eq_firstMatch (et : List Nat) (es : Option Nat) :
    ∀ (n : Nat) (outs : List RecvOutcome),
      send_recv_loop et es n outs =
        (firstMatchSpec et es (outs.take n)).getD (none, none)
  | 0, _ => by simp [send_recv_loop, firstMatchSpec]
  | _ + 1, [] => by simp [send_recv_loop, firstMatchSpec]
  | n + 1, .timeout :: rest => by
      simp only [send_recv_loop, List.take_succ_cons, firstMatchSpec]
      exact send_recv_loop_eq_firstMatch et es n rest
  | n + 1, .gotPkt d :: rest => by
      simp only [send_recv_loop, List.take_succ_cons, firstMatchSpec]
      by_cases h : respMatches et es d = true
      · simp [h]
      · simp only [Bool.not_eq_true] at h
        simp [h]
        exact send_recv_loop_eq_firstMatch et es n rest

/-- C5: the primitive succeeds exactly when, within its `RETRIES`
attempt budget, some received response has an acceptable type and (when
an expected sequence was given) the expected sequence; it then returns
that response's `(type, sequence)`. When the budget is exhausted with no
such match, it returns `(None, None)`. -/
theorem send_recv_with_retry_characterization (et : List Nat)
    (es : Option Nat) (outs : List RecvOutcome) :
    send_recv_with_retry et es outs =
      (firstMatchSpec et es (outs.take RETRIES)).getD (none, none) :=
  send_recv_loop_eq_firstMatch et es RETRIES outs

/-- C4 counterexample: with acceptable type `DATA_ACK` and expected
sequence 0, five consecutive non-matching responses (SYN_ACK frames)
exhaust the whole retry budget, so a perfectly matching `DATA_ACK(0)`
available as the sixth receive outcome is never examined and the call
fails. A response that fails the match therefore does consume a retry
attempt, contradicting "counted against nothing". -/
theorem send_recv_mismatch_cx :
    send_recv_with_retry [5] (some 0)
      (List.replicate 5 (.gotPkt (pack_msg 2 0 [])) ++
        [.gotPkt (pack_msg 5 0 [])]) = (none, none) := by
  decide

/-- C4 (amended): a received response that fails the match test is
silently discarded — it is never returned and the outcome of the call is
as if the loop restarted on the remaining outcomes — but it ends the
current attempt: exactly one unit of the retry budget is consumed (the
budget is decremented by one, never reset), and the packet is
retransmitted at the start of the next attempt. -/
theorem send_recv_mismatch_consumes_one_attempt (et : List Nat)
    (es : Option Nat) (n : Nat) (d : Bytes) (rest : List RecvOutcome)
    (h : respMatches et es d = false) :
    send_recv_loop et es (n + 1) (.gotPkt d :: rest) =
      send_recv_loop et es n rest := by
  simp [send_recv_loop, h]

/-- C4 witness: a SYN_ACK response while waiting for `DATA_ACK(0)`
consumes one of two remaining attempts. -/
theorem send_recv_mismatch_consumes_one_attempt_w :
    send_recv_loop [5] (some 0) 2
        [.gotPkt (pack_msg 2 0 []), .gotPkt (pack_msg 5 0 [])] =
      send_recv_loop [5] (some 0) 1 [.gotPkt (pack_msg 5 0 [])] :=
  send_recv_mismatch_consumes_one_attempt [5] (some 0) 1 (pack_msg 2 0 [])
    [.gotPkt (pack_msg 5 0 [])] (by decide)

/-- Abstract peer address (stands for the `(host, port)` pairs returned
by `recvfrom`; only equality of addresses matters to the server). -/
abbrev Addr := Nat

/-- The server's mutable state: `client_addr` (the bound peer, if any),
`established`, and `expect_seq` (the next in-order DATA sequence). -/
structure ServerState where
  client_addr : Option Addr
  established : Bool
  expect_seq : Nat
deriving DecidableEq, Repr

/-- The observable actions of one iteration of the server loop: a
`sendto` (with its destination, which in the source is the possibly-None
`client_addr` variable, and its bytes), a payload delivered to the
output sink (the `print(text, ...)` of a DATA payload), or a sleep for
some duration. The translated loop body never performs a sleep — the
constructor exists so that the absence of any artificial delay is
expressible. -/
inductive Effect where
  | send (dest : Option Addr) (data : Bytes)
  | deliver (payload : Bytes)
  | sleepFor (duration : Nat)
deriving DecidableEq, Repr

/-- One iteration of the server receive loop (`main` of
rudp_server_skeleton.py) on datagram `pkt` arriving from `addr`:
returns the updated state and the effects performed, in program order. -/
def serverStep (st : ServerState) (addr : Addr) (pkt : Bytes) :
    ServerState × List Effect :=
  match unpack_msg pkt with
  | (some tp, some seq, pl) =>
    if st.established = false then
      if tp = SYN ∧ st.client_addr = none then
        ({ st with client_addr := some addr },
          [.send (some addr) (pack_msg SYN_ACK 0 [])])
      else if tp = ACK ∧ st.client_addr = some addr then
        ({ st with established := true, expect_seq := 0 }, [])
      else (st, [])
    else if st.client_addr ≠ none ∧ st.client_addr ≠ some addr then
      (st, [])
    else if tp = DATA then
      if seq = st.expect_seq then
        ({ st with expect_seq := st.expect_seq + 1 },
          [.deliver pl, .send st.client_addr (pack_msg DATA_ACK seq [])])
      else
        (st,
          [.send st.client_addr
            (pack_msg DATA_ACK
              (if st.expect_seq > 0 then st.expect_seq - 1 else 0) [])])
    else if tp = FIN then
      ({ client_addr := none, established := false, expect_seq := 0 },
        [.send st.client_addr (pack_msg FIN_ACK 0 [])])
    else (st, [])
  | _ => (st, [])

/-- The state at process start: no peer, not established, `expect_seq`
0. -/
def serverInit : ServerState := ⟨none, false, 0⟩

/-- The receive loop iterated over a list of inbound
`(sender, datagram)` pairs, accumulating the effects in order. -/
def serverRun (st : ServerState) : List (Addr × Bytes) → ServerState × List Effect
  | [] => (st, [])
  | (a, p) :: rest =>
    let step := serverStep st a p
    let next := serverRun step.1 rest
    (next.1, step.2 ++ next.2)

/-- The payloads delivered to the output sink, in order, among a list of
effects. -/
def deliveredPayloads (effs : List Effect) : List Bytes :=
  effs.filterMap fun e =>
    match e with
    | .deliver p => some p
    | _ => none

/-- Whether an effect is a `sendto`. -/
def isSendEff : Effect → Bool
  | .send _ _ => true
  | _ => false

/-- Whether some effect in the list is a sleep. -/
def hasSleep (effs : List Effect) : Bool :=
  effs.any fun e =>
    match e with
    | .sleepFor _ => true
    | _ => false

/-- Whether every `sendto` in the list has a bound (non-None)
destination address. -/
def sendsBound (effs : List Effect) : Bool :=
  effs.all fun e =>
    match e with
    | .send d _ => d.isSome
    | _ => true

/-- C2: a DATA frame from the bound peer in the ESTABLISHED phase whose
sequence differs from `expect_seq` is not delivered, leaves the state
(including `expect_seq`) unchanged, and is answered with
`DATA_ACK(max(expect_seq - 1, 0))` (which is `expect_seq - 1` in
truncated natural subtraction). -/
theorem server_out_of_order_data (st : ServerState) (a : Addr) (pkt : Bytes)
    (s : Nat) (pl : Bytes) (hest : st.established = true)
    (haddr : st.client_addr = some a)
    (hpkt : unpack_msg pkt = (some DATA, some s, pl))
    (hne : s ≠ st.expect_seq) :
    serverStep st a pkt =
      (st, [.send (some a) (pack_msg DATA_ACK (st.expect_seq - 1) [])]) := by
  have hif : (if st.expect_seq > 0 then st.expect_seq - 1 else 0) =
      st.expect_seq - 1 := by split <;> omega
  simp [serverStep, hpkt, hest, haddr, hne, hif, DATA, SYN, FIN]

/-- C2 witness: in state `(peer 0, ESTABLISHED, expect_seq 3)`, DATA
with sequence 5 is re-acked with `DATA_ACK(2)` and nothing changes. -/
theorem server_out_of_order_data_w :
    serverStep ⟨some 0, true, 3⟩ 0 (pack_msg 4 5 [9]) =
      (⟨some 0, true, 3⟩, [.send (some 0) (pack_msg 5 2 [])]) :=
  server_out_of_order_data ⟨some 0, true, 3⟩ 0 (pack_msg 4 5 [9]) 5 [9]
    rfl rfl (by decide) (by decide)

/-- C6: while any peer `A` is bound (in either phase), a SYN from a
different address `B` gets no reply and changes nothing. -/
theorem server_exclusivity (st : ServerState) (A B : Addr) (pkt : Bytes)
    (s : Nat) (pl : Bytes) (hA : st.client_addr = some A) (hne : B ≠ A)
    (hpkt : unpack_msg pkt = (some SYN, some s, pl)) :
    serverStep st B pkt = (st, []) := by
  have hne' : A ≠ B := fun h => hne h.symm
  cases hestb : st.established
  · simp [serverStep, hpkt, hestb, hA, SYN, ACK]
  · simp [serverStep, hpkt, hestb, hA, hne', SYN, DATA, FIN]

/-- C6 witness: with peer 1 bound and ESTABLISHED, a SYN from address 2
is ignored. -/
theorem server_exclusivity_w :
    serverStep ⟨some 1, true, 4⟩ 2 (pack_msg 1 0 []) =
      (⟨some 1, true, 4⟩, []) :=
  server_exclusivity ⟨some 1, true, 4⟩ 1 2 (pack_msg 1 0 []) 0 []
    rfl (by decide) (by decide)

/-- C7: a FIN from the bound peer in the ESTABLISHED phase is answered
with `FIN_ACK(0)` and resets the whole connection state to the initial
one (LISTENING, no peer, `expect_seq = 0`); consequently the reset state
accepts a SYN from any address (binding it and replying `SYN_ACK(0)`),
and an ACK from that newly bound address establishes the next session
with `expect_seq = 0`, so its first in-order DATA sequence is 0. -/
theorem server_fin_resets (st : ServerState) (a : Addr) (pkt : Bytes)
    (s : Nat) (pl : Bytes) (hest : st.established = true)
    (haddr : st.client_addr = some a)
    (hpkt : unpack_msg pkt = (some FIN, some s, pl)) :
    serverStep st a pkt = (serverInit, [.send (some a) (pack_msg FIN_ACK 0 [])])
    ∧ (∀ (B : Addr) (pkt' : Bytes) (s' : Nat) (pl' : Bytes),
        unpack_msg pkt' = (some SYN, some s', pl') →
        serverStep serverInit B pkt' =
          (⟨some B, false, 0⟩, [.send (some B) (pack_msg SYN_ACK 0 [])]))
    ∧ (∀ (B : Addr) (pkt2 : Bytes) (s2 : Nat) (pl2 : Bytes),
        unpack_msg pkt2 = (some ACK, some s2, pl2) →
        serverStep ⟨some B, false, 0⟩ B pkt2 = (⟨some B, true, 0⟩, [])) := by
  refine ⟨?_, ?_, ?_⟩
  · simp [serverStep, hpkt, hest, haddr, serverInit, FIN, SYN, DATA]
  · intro B pkt' s' pl' hpkt'
    simp [serverStep, hpkt', serverInit, SYN]
  · intro B pkt2 s2 pl2 hpkt2
    simp [serverStep, hpkt2, SYN, ACK]

/-- C7 witness: FIN from bound peer 3 while expecting sequence 5. -/
theorem server_fin_resets_w :
    serverStep ⟨some 3, true, 5⟩ 3 (pack_msg 6 0 []) =
      (serverInit, [.send (some 3) (pack_msg 7 0 [])]) :=
  (server_fin_resets ⟨some 3, true, 5⟩ 3 (pack_msg 6 0 []) 0 []
    rfl rfl (by decide)).1

/-- C8: any buffer shorter than the 7-byte header decodes to the failure
sentinel `(None, None, b'')` — no exception reaches the caller, as
`unpack_msg` is total — and the server loop drops such a datagram with
no reply, no delivery and no state change. -/
theorem unpack_short_fails (pkt : Bytes) (h : pkt.length < HDR_SZ) :
    unpack_msg pkt = (none, none, []) ∧
      ∀ (st : ServerState) (a : Addr), serverStep st a pkt = (st, []) := by
  have hu : unpack_msg pkt = (none, none, []) := by
    rcases pkt with _ | ⟨b0, _ | ⟨b1, _ | ⟨b2, _ | ⟨b3, _ | ⟨b4, _ | ⟨b5, _ | ⟨b6, rest⟩⟩⟩⟩⟩⟩⟩
    all_goals first
      | rfl
      | (exfalso; simp [HDR_SZ] at h; omega)
  exact ⟨hu, fun st a => by simp [serverStep, hu]⟩

/-- C8 witness: the spec's 3-byte malformed datagram scenario. -/
theorem unpack_short_fails_w :
    unpack_msg [1, 2, 3] = (none, none, []) ∧
      serverStep ⟨some 0, true, 2⟩ 9 [1, 2, 3] = (⟨some 0, true, 2⟩, []) :=
  ⟨(unpack_short_fails [1, 2, 3] (by decide)).1,
    (unpack_short_fails [1, 2, 3] (by decide)).2 ⟨some 0, true, 2⟩ 9⟩

/-- C9 counterexample: an in-order DATA frame processed in the
ESTABLISHED phase is answered immediately — the complete effect list is
a delivery followed by the `DATA_ACK` send, and contains no sleep of any
duration, refuting the claimed randomized processing delay before the
reply. -/
theorem server_no_delay_cx :
    serverStep ⟨some 0, true, 0⟩ 0 (pack_msg 4 0 [65]) =
      (⟨some 0, true, 1⟩,
        [.deliver [65], .send (some 0) (pack_msg 5 0 [])]) ∧
    hasSleep (serverStep ⟨some 0, true, 0⟩ 0 (pack_msg 4 0 [65])).2 = false := by
  decide

/-- C9 (amended): the server's receive loop performs no sleep at all —
for every state and every inbound datagram, the effects of one loop
iteration contain no delay; replies to DATA frames are sent without any
randomized processing delay. -/
theorem server_step_never_sleeps (st : ServerState) (a : Addr) (pkt : Bytes) :
    hasSleep (serverStep st a pkt).2 = false := by
  unfold serverStep
  rcases hu : unpack_msg pkt with ⟨_ | tp, _ | s, pl⟩ <;> simp [hasSleep]
  all_goals split_ifs <;> simp [hasSleep]

/-- The invariant "established implies a bound client address" is
preserved by one iteration of the receive loop. -/
theorem serverStep_preserves_inv (st : ServerState) (a : Addr) (pkt : Bytes)
    (hinv : st.established = true → st.client_addr.isSome = true) :
    (serverStep st a pkt).1.established = true →
      (serverStep st a pkt).1.client_addr.isSome = true := by
  rcases hu : unpack_msg pkt with ⟨_ | tp, _ | s, pl⟩
  · simpa [serverStep, hu] using hinv
  · simpa [serverStep, hu] using hinv
  · simpa [serverStep, hu] using hinv
  · simp only [serverStep, hu]
    split_ifs <;> first | exact hinv | (intro h; simp_all)

/-- Every `sendto` performed by one iteration has a bound destination,
provided the state satisfies the invariant. -/
theorem serverStep_sends_bound (st : ServerState) (a : Addr) (pkt : Bytes)
    (hinv : st.established = true → st.client_addr.isSome = true) :
    sendsBound (serverStep st a pkt).2 = true := by
  rcases hu : unpack_msg pkt with ⟨_ | tp, _ | s, pl⟩
  · simp [serverStep, hu, sendsBound]
  · simp [serverStep, hu, sendsBound]
  · simp [serverStep, hu, sendsBound]
  · simp only [serverStep, hu]
    split_ifs <;> simp [sendsBound]
    all_goals exact hinv (by simp_all)

/-- C10: the initial state satisfies "established implies a bound client
address", every loop iteration preserves it, and under it every `sendto`
of an iteration has a bound destination. -/
theorem server_established_addr_bound :
    (serverInit.established = true → serverInit.client_addr.isSome = true)
    ∧ ∀ (st : ServerState) (a : Addr) (pkt : Bytes),
        (st.established = true → st.client_addr.isSome = true) →
        ((serverStep st a pkt).1.established = true →
            (serverStep st a pkt).1.client_addr.isSome = true)
          ∧ sendsBound (serverStep st a pkt).2 = true :=
  ⟨by simp [serverInit], fun st a pkt hinv =>
    ⟨serverStep_preserves_inv st a pkt hinv,
      serverStep_sends_bound st a pkt hinv⟩⟩

/-- C10 witness: the invariant instantiated at the ESTABLISHED state
with peer 0 on an in-order DATA frame. -/
theorem server_established_addr_bound_w :
    ((serverStep ⟨some 0, true, 0⟩ 0 (pack_msg 4 0 [7])).1.established = true →
        (serverStep ⟨some 0, true, 0⟩ 0 (pack_msg 4 0 [7])).1.client_addr.isSome = true)
      ∧ sendsBound (serverStep ⟨some 0, true, 0⟩ 0 (pack_msg 4 0 [7])).2 = true :=
  server_established_addr_bound.2 ⟨some 0, true, 0⟩ 0 (pack_msg 4 0 [7])
    (fun _ => by decide)

/-- The subsequence of arrival sequence numbers accepted in order by the
`seq == expect_seq` test, starting from expected value `e`: an accepted
arrival advances the expectation, every other arrival leaves it. -/
def acceptedSeqs : Nat → List Nat → List Nat
  | _, [] => []
  | e, s :: rest =>
      if s = e then e :: acceptedSeqs (e + 1) rest else acceptedSeqs e rest

/-- Every accepted sequence number is at least the starting expectation. -/
theorem acceptedSeqs_mem_ge : ∀ (ss : List Nat) (e x : Nat),
    x ∈ acceptedSeqs e ss → e ≤ x
  | [], _, _ => by simp [acceptedSeqs]
  | s :: rest, e, x => by
    simp only [acceptedSeqs]
    split_ifs with h
    · intro hx
      rcases List.mem_cons.mp hx with h1 | h1
      · omega
      · have := acceptedSeqs_mem_ge rest (e + 1) x h1
        omega
    · exact acceptedSeqs_mem_ge rest e x

/-- No sequence number is accepted twice. -/
theorem acceptedSeqs_count_le_one : ∀ (ss : List Nat) (e k : Nat),
    (acceptedSeqs e ss).count k ≤ 1
  | [], _, _ => by simp [acceptedSeqs]
  | s :: rest, e, k => by
    simp only [acceptedSeqs]
    split_ifs with h
    · by_cases hk : k = e
      · subst hk
        have hnot : k ∉ acceptedSeqs (k + 1) rest := fun hmem =>
          absurd (acceptedSeqs_mem_ge rest (k + 1) k hmem) (by omega)
        rw [List.count_cons_self]
        have := List.count_eq_zero.mpr hnot
        omega
      · rw [List.count_cons_of_ne hk]
        exact acceptedSeqs_count_le_one rest (e + 1) k
    · exact acceptedSeqs_count_le_one rest e k

/-- A sequence number that is accepted at all is accepted exactly once. -/
theorem acceptedSeqs_count_eq_one (ss : List Nat) (e k : Nat)
    (h : k ∈ acceptedSeqs e ss) : (acceptedSeqs e ss).count k = 1 := by
  have h1 := acceptedSeqs_count_le_one ss e k
  have h2 : (acceptedSeqs e ss).count k ≠ 0 :=
    fun h0 => absurd h (List.count_eq_zero.mp h0)
  omega

/-- In-order DATA from the bound peer: deliver, ack with the same
sequence, advance the expectation. -/
theorem serverStep_data_inorder (st : ServerState) (a : Addr) (pkt : Bytes)
    (pl : Bytes) (hest : st.established = true)
    (haddr : st.client_addr = some a)
    (hpkt : unpack_msg pkt = (some DATA, some st.expect_seq, pl)) :
    serverStep st a pkt =
      ({ st with expect_seq := st.expect_seq + 1 },
        [.deliver pl, .send (some a) (pack_msg DATA_ACK st.expect_seq [])]) := by
  simp [serverStep, hpkt, hest, haddr, DATA, SYN, FIN]

/-- Out-of-order DATA from the bound peer: no delivery, no advance,
re-ack the last in-order sequence. -/
theorem serverStep_data_outoforder (st : ServerState) (a : Addr) (pkt : Bytes)
    (s : Nat) (pl : Bytes) (hest : st.established = true)
    (haddr : st.client_addr = some a)
    (hpkt : unpack_msg pkt = (some DATA, some s, pl))
    (hne : s ≠ st.expect_seq) :
    serverStep st a pkt =
      (st, [.send (some a)
        (pack_msg DATA_ACK
          (if st.expect_seq > 0 then st.expect_seq - 1 else 0) [])]) := by
  simp [serverStep, hpkt, hest, haddr, hne, DATA, SYN, FIN]

/-- Characterization of a run of DATA frames from the bound peer in the
ESTABLISHED phase: the final expectation advances by the number of
accepted arrivals, the payloads delivered are exactly those of the
accepted arrivals, every arrival is answered by exactly one send, and
every send is a `DATA_ACK` to the bound peer. -/
theorem serverRun_data (a : Addr) (P : Nat → Bytes)
    (hP : ∀ s, (P s).length ≤ 65535) :
    ∀ (ss : List Nat) (e : Nat), (∀ s ∈ ss, s < 4294967296) →
      (serverRun ⟨some a, true, e⟩
          (ss.map fun s => (a, pack_msg DATA s (P s)))).1 =
        ⟨some a, true, e + (acceptedSeqs e ss).length⟩
      ∧ deliveredPayloads (serverRun ⟨some a, true, e⟩
            (ss.map fun s => (a, pack_msg DATA s (P s)))).2 =
          (acceptedSeqs e ss).map P
      ∧ ((serverRun ⟨some a, true, e⟩
            (ss.map fun s => (a, pack_msg DATA s (P s)))).2.countP isSendEff) =
          ss.length
      ∧ ∀ eff ∈ (serverRun ⟨some a, true, e⟩
            (ss.map fun s => (a, pack_msg DATA s (P s)))).2,
          isSendEff eff = true →
            ∃ q, eff = .send (some a) (pack_msg DATA_ACK q []) := by
  intro ss
  induction ss with
  | nil =>
    intro e _
    simp [serverRun, acceptedSeqs, deliveredPayloads]
  | cons s rest ih =>
    intro e hlt
    have hs : s < 4294967296 := hlt s (by simp)
    have hrest : ∀ x ∈ rest, x < 4294967296 := fun x hx => hlt x (by simp [hx])
    have hup : unpack_msg (pack_msg DATA s (P s)) = (some DATA, some s, P s) :=
      unpack_pack DATA s (P s) (by decide) hs (hP s)
    by_cases hse : s = e
    · subst hse
      have hstep := serverStep_data_inorder ⟨some a, true, s⟩ a
        (pack_msg DATA s (P s)) (P s) rfl rfl hup
      obtain ⟨ih1, ih2, ih3, ih4⟩ := ih (s + 1) hrest
      simp only [List.map_cons, serverRun, hstep]
      refine ⟨?_, ?_, ?_, ?_⟩
      · have hacc : acceptedSeqs s (s :: rest) = s :: acceptedSeqs (s + 1) rest := by
          simp [acceptedSeqs]
        rw [ih1, hacc, List.length_cons]
        congr 1
        omega
      · simp only [deliveredPayloads, List.filterMap_append] at ih2 ⊢
        simp [acceptedSeqs, deliveredPayloads, ih2]
      · simp only [List.countP_append] at ih3 ⊢
        simp [isSendEff, ih3, List.countP_cons]
        omega
      · intro eff hmem hsend
        rcases List.mem_append.mp hmem with hm | hm
        · rcases List.mem_cons.mp hm with h1 | h1
          · subst h1; simp [isSendEff] at hsend
          · rcases List.mem_cons.mp h1 with h2 | h2
            · subst h2; exact ⟨s, rfl⟩
            · simp at h2
        · exact ih4 eff hm hsend
    · have hstep := serverStep_data_outoforder ⟨some a, true, e⟩ a
        (pack_msg DATA s (P s)) s (P s) rfl rfl hup hse
      obtain ⟨ih1, ih2, ih3, ih4⟩ := ih e hrest
      simp only [List.map_cons, serverRun, hstep]
      refine ⟨?_, ?_, ?_, ?_⟩
      · simp only [ih1, acceptedSeqs, if_neg hse]
      · simp only [deliveredPayloads, List.filterMap_append] at ih2 ⊢
        simp [acceptedSeqs, if_neg hse, deliveredPayloads, ih2]
      · simp only [List.countP_append] at ih3 ⊢
        simp [isSendEff, ih3, List.countP_cons]
        omega
      · intro eff hmem hsend
        rcases List.mem_append.mp hmem with hm | hm
        · rcases List.mem_cons.mp hm with h1 | h1
          · subst h1
            exact ⟨if e > 0 then e - 1 else 0, rfl⟩
          · simp at h1
        · exact ih4 eff hm hsend

/-- C3: over any sequence of DATA frames from the bound peer in the
ESTABLISHED phase (duplicates allowed), the payloads delivered to the
output sink are exactly those of the in-order-accepted arrivals, chunk
`k` is accepted at most once — and exactly once when some arrival of `k`
is in order — while every arrival, duplicates included, is answered by
exactly one send, each a `DATA_ACK` to the bound peer; duplicates are
thus re-acked and never re-delivered. -/
theorem server_at_most_once_delivery (a : Addr) (P : Nat → Bytes)
    (ss : List Nat) (e k : Nat) (hP : ∀ s, (P s).length ≤ 65535)
    (hlt : ∀ s ∈ ss, s < 4294967296) :
    deliveredPayloads (serverRun ⟨some a, true, e⟩
        (ss.map fun s => (a, pack_msg DATA s (P s)))).2 =
      (acceptedSeqs e ss).map P
    ∧ (acceptedSeqs e ss).count k ≤ 1
    ∧ (k ∈ acceptedSeqs e ss → (acceptedSeqs e ss).count k = 1)
    ∧ ((serverRun ⟨some a, true, e⟩
        (ss.map fun s => (a, pack_msg DATA s (P s)))).2.countP isSendEff) =
      ss.length
    ∧ ∀ eff ∈ (serverRun ⟨some a, true, e⟩
          (ss.map fun s => (a, pack_msg DATA s (P s)))).2,
        isSendEff eff = true →
          ∃ q, eff = .send (some a) (pack_msg DATA_ACK q []) := by
  obtain ⟨_, h2, h3, h4⟩ := serverRun_data a P hP ss e hlt
  exact ⟨h2, acceptedSeqs_count_le_one ss e k,
    acceptedSeqs_count_eq_one ss e k, h3, h4⟩

/-- C3 witness: peer 0, chunks carrying payload `[s]` for chunk `s`,
arrival order `0, 0, 1, 1` (each chunk duplicated): only `[0]` and `[1]`
are delivered, once each, while all four arrivals are acked. -/
theorem server_at_most_once_delivery_w :
    deliveredPayloads (serverRun ⟨some 0, true, 0⟩
        (List.map (fun s => (0, pack_msg DATA s [s])) [0, 0, 1, 1])).2 =
      List.map (fun s => [s]) (acceptedSeqs 0 [0, 0, 1, 1])
    ∧ (acceptedSeqs 0 [0, 0, 1, 1]).count 0 ≤ 1 :=
  ⟨(server_at_most_once_delivery 0 (fun s => [s]) [0, 0, 1, 1] 0 0
      (fun s => by simp) (by decide)).1,
    (server_at_most_once_delivery 0 (fun s => [s]) [0, 0, 1, 1] 0 0
      (fun s => by simp) (by decide)).2.1⟩
